import Mathlib

set_option maxRecDepth 100000

/-!
Verification of the HAP-BLE PDU codec, fragmenter, transaction engine and
signature parser of `pyhomekit` (src/pyhomekit/ble.py), via a shallow
embedding.  Bytes are modelled as `Nat` (each meaningful byte is `< 256`;
`struct.pack` range conditions are carried as hypotheses where they matter).
Byte strings are `List Nat`.
-/

/-- Shallow embedding of `HapBlePduRequestHeader` (ble.py lines 15-78).
`cidSid` is the raw bytes of the characteristic / service instance id.
The lazily drawn transaction id is modelled separately by
`getTransactionId`; here the header carries the resolved value. -/
structure HapBlePduRequestHeader where
  continuation : Bool
  response : Bool
  opCode : Nat
  transactionId : Nat
  cidSid : List Nat
deriving DecidableEq, Repr

/-- `HapBlePduRequestHeader.control_field` (ble.py 51-56): the control field
is built from the bit string "{continuation}00000{response}0" read as a
binary numeral, i.e. continuation contributes `2^7` and response `2^1`. -/
def reqControlField (h : HapBlePduRequestHeader) : Nat :=
  (if h.continuation then 1 else 0) * 128 + (if h.response then 1 else 0) * 2

/-- `HapBlePduRequestHeader.data` (ble.py 70-78): a continuation header is
`pack('<BB', control_field, transaction_id)`; a first-fragment header is
`pack('<BBB', control_field, op_code, transaction_id) + cid_sid`. -/
def reqHeaderData (h : HapBlePduRequestHeader) : List Nat :=
  if h.continuation then [reqControlField h, h.transactionId]
  else [reqControlField h, h.opCode, h.transactionId] ++ h.cidSid

/-- `HapBlePduRequestHeader.transaction_id` (ble.py 58-68): the stored
`_transaction_id` starts as `None`; on first access an 8-bit random value is
drawn (`random.SystemRandom().getrandbits(8)`, modelled as `r % 256` for an
arbitrary source value `r`) and cached; later accesses return the cache.
Returns the value read together with the updated stored state. -/
def getTransactionId : Option Nat → Nat → Nat × Option Nat
  | none, r => (r % 256, some (r % 256))
  | some t, _ => (t, some t)

/-- Shallow embedding of `HapBlePduResponseHeader` (ble.py 81-138). -/
structure HapBlePduResponseHeader where
  continuation : Bool
  response : Bool
  transactionId : Nat
  statusCode : Nat
deriving DecidableEq, Repr

/-- `HapBlePduResponseHeader.control_field` (ble.py 127-132): same bit
layout as the request control field. -/
def respControlField (h : HapBlePduResponseHeader) : Nat :=
  (if h.continuation then 1 else 0) * 128 + (if h.response then 1 else 0) * 2

/-- `HapBlePduResponseHeader.data` (ble.py 134-138):
`pack('<BBB', control_field, transaction_id, status_code)`. -/
def respData (h : HapBlePduResponseHeader) : List Nat :=
  [respControlField h, h.transactionId, h.statusCode]

/-- `HapBlePduResponseHeader.from_data` (ble.py 111-125): the first byte is
rendered as an LSB-first bit string; `continuation` is bit 7 and `response`
is bit 1; bytes 1 and 2 are the transaction id and status code. -/
def respFromData (d : List Nat) : HapBlePduResponseHeader :=
  { continuation := Nat.testBit (d.getD 0 0) 7
    response := Nat.testBit (d.getD 0 0) 1
    transactionId := d.getD 1 0
    statusCode := d.getD 2 0 }

/-- `HapCharacteristic._prepare_tlv` (ble.py 200-205):
`pack('<BB', param_type, len(value)) + value`.  `pack` demands
`param_type < 256` and `len(value) < 256`; theorems that depend on the
bytes carry those bounds as hypotheses. -/
def prepare_tlv (t : Nat) (v : List Nat) : List Nat :=
  t :: v.length :: v

/-- `pack('<H', n)`: two-byte little-endian encoding. -/
def le16 (n : Nat) : List Nat :=
  [n % 256, n / 256 % 256]

/-- Total encoded TLV size of a pending body, item `(t, v)` contributing
`2 + v.length` bytes; this is the fuel measure for the fragmentation loop. -/
def weight (body : List (Nat × List Nat)) : Nat :=
  (body.map fun p => 2 + p.2.length).sum

/-- The inner loop of `HapCharacteristic._request` (ble.py 237-239): pop
whole TLVs off the front of `body` into `fd` while the next encoded TLV
keeps `fd` strictly under 512 bytes.  Returns the remaining body and the
accumulated fragment data. -/
def fillFragment : List (Nat × List Nat) → List Nat →
    List (Nat × List Nat) × List Nat
  | [], fd => ([], fd)
  | (t, v) :: rest, fd =>
    if fd.length + (prepare_tlv t v).length < 512 then
      fillFragment rest (fd ++ prepare_tlv t v)
    else ((t, v) :: rest, fd)

/-- The `while body:` loop of `HapCharacteristic._request` (ble.py 234-261),
with fuel (each iteration strictly decreases `weight body`, see
`fragLoopF_spec`; `requestWrites` supplies sufficient fuel).  One iteration
fills a fragment from whole TLVs, then, if items remain, splits the head
item's value at `512 - fd.length` bytes, emitting the first slice as a TLV
of the same type and leaving the remainder at the head of the body; the
frame `header.data + pack('<H', len(fd)) + fd` is emitted and the header's
continuation flag is set for subsequent frames.  Returns the emitted
frames, the final body list and the final header. -/
def fragLoopF : Nat → HapBlePduRequestHeader → List (Nat × List Nat) →
    List (List Nat) × List (Nat × List Nat) × HapBlePduRequestHeader
  | 0, h, body => ([], body, h)
  | fuel + 1, h, body =>
    if body = [] then ([], body, h)
    else
      match fillFragment body [] with
      | ([], fd) =>
        ([reqHeaderData h ++ le16 fd.length ++ fd], [],
          { h with continuation := true })
      | ((t, v) :: tail, fd) =>
        let fd2 := fd ++ prepare_tlv t (v.take (512 - fd.length))
        let res := fragLoopF fuel { h with continuation := true }
          ((t, v.drop (512 - fd.length)) :: tail)
        ((reqHeaderData h ++ le16 fd2.length ++ fd2) :: res.1, res.2.1, res.2.2)

/-- `HapCharacteristic._request` (ble.py 207-261): with an empty body only
the header is written; otherwise if
`len(header.data) + 2 + body_len <= 512` a single frame
`header.data + pack('<H', body_len) + body_concat` is written; otherwise
the fragmentation loop runs.  Returns the written frames together with the
final state of the caller's `body` list and of the header object. -/
def requestWrites (h : HapBlePduRequestHeader) (body : List (Nat × List Nat)) :
    List (List Nat) × List (Nat × List Nat) × HapBlePduRequestHeader :=
  if body = [] then ([reqHeaderData h], body, h)
  else
    let tlvs := body.map fun p => prepare_tlv p.1 p.2
    let bodyLen := (tlvs.map List.length).sum
    if (reqHeaderData h).length + 2 + bodyLen ≤ 512 then
      ([reqHeaderData h ++ le16 bodyLen ++ tlvs.flatten], body, h)
    else fragLoopF (weight body + 1) h body

/-- The transaction id byte of an emitted frame: byte 1 of a continuation
frame (control-field bit 7 set), byte 2 of a first-fragment frame. -/
def frameTid (f : List Nat) : Nat :=
  if Nat.testBit (f.headD 0) 7 then f.getD 1 0 else f.getD 2 0

/-- Modelled from the spec: `constants.HapBleStatusCodes.Success` and the
`constants.status_code_to_name` table are in the repository's `constants`
module, which is not under src/.  The spec pins status `0x00` = Success and
`0x06` = "Invalid Request"; the other entries of the closed enumeration are
not named by the spec and are left out (`none`).  A missing entry makes the
Python dict lookup in `HapBleError.__init__` raise `KeyError`. -/
def status_code_to_name : Nat → Option String := fun s =>
  if s = 0 then some "Success"
  else if s = 6 then some "Invalid Request"
  else none

/-- The failure outcomes of the transaction engine and parser, one
constructor per distinct `raise` site (plus `structError` for the
exceptions `struct.unpack` itself raises on a short buffer, and the two
`keyError` forms for Python dict lookups of missing keys). -/
inductive HapRequestError where
  | invalidControlField (got expected : Nat)
  | invalidTransactionId (got expected : Nat)
  | hapBleError (statusCode : Nat) (name : String)
  | invalidBodyLength (got expected : Nat)
  | structError
  | keyError (key : Nat)
  | keyErrorName (key : String)
  | invalidResponseLength
  | malformedTLV
  | notImplemented
  | typeError
deriving DecidableEq, Repr

/-- `unpack('<H', b)`: requires exactly two bytes, little endian. -/
def unpackH (l : List Nat) : Option Nat :=
  if l.length = 2 then some (l.getD 0 0 + 256 * l.getD 1 0) else none

/-- `HapCharacteristic._check_read_response` (ble.py 340-364): decode the
response header from the first three bytes (a response shorter than three
bytes makes `unpack` in `from_data` fail, modelled as `structError`); then
require the re-encoded control field to equal the request's, the
transaction id to equal the request's, and the status code to be Success
(else `HapBleError`, whose name lookup in the constants table can itself
raise `KeyError`); finally, when the response is longer than three bytes,
read `response[3:5]` as a two-byte length and require it to equal
`len(response[5:])`. -/
def check_read_response (reqHeader : HapBlePduRequestHeader)
    (response : List Nat) :
    Except HapRequestError HapBlePduResponseHeader :=
  if response.length < 3 then .error .structError
  else if respControlField (respFromData response)
      ≠ reqControlField reqHeader then
    .error (.invalidControlField (respControlField (respFromData response))
      (reqControlField reqHeader))
  else if (respFromData response).transactionId
      ≠ reqHeader.transactionId then
    .error (.invalidTransactionId (respFromData response).transactionId
      reqHeader.transactionId)
  else if (respFromData response).statusCode ≠ 0 then
    match status_code_to_name (respFromData response).statusCode with
    | some nm => .error (.hapBleError (respFromData response).statusCode nm)
    | none => .error (.keyError (respFromData response).statusCode)
  else if 3 < response.length then
    match unpackH ((response.drop 3).take 2) with
    | none => .error .structError
    | some bl =>
      if (response.drop 5).length ≠ bl then
        .error (.invalidBodyLength (response.drop 5).length bl)
      else .ok (respFromData response)
  else .ok (respFromData response)

/-- `HapCharacteristic.write` (ble.py 268-290) after the transport
interaction: validate the response against the request header; raise
`NotImplementedError` if the response header has the continuation bit set;
otherwise hand the raw response to `_parse_response` (abstracted here as
the parameter `parse`, so that theorems quantifying over `parse` express
that the parser is not invoked on rejected responses). -/
def hapWrite {α : Type} (parse : List Nat → Except HapRequestError α)
    (reqHeader : HapBlePduRequestHeader) (response : List Nat) :
    Except HapRequestError α :=
  match check_read_response reqHeader response with
  | .error e => .error e
  | .ok rh => if rh.continuation then .error .notImplemented else parse response

/-- Values a TLV attribute can decode to.  The Python converters live in
the `constants` module (not under src/); a converter result is raw bytes,
a string, a number, a `(format_code, unit_code)` pair, or a converter
function (stored under `HAP_Format_Converter` and referenced here by its
format name). -/
inductive HapVal where
  | raw : List Nat → HapVal
  | str : String → HapVal
  | num : Nat → HapVal
  | pair : Nat → Nat → HapVal
  | convRef : String → HapVal
deriving DecidableEq, Repr

/-- Modelled from the spec: the caller-supplied constants tables consumed
by `_parse_response` (`HAP_param_type_code_to_name`,
`HAP_param_name_to_converter`, `format_code_to_name`,
`format_name_to_converter`, `unit_code_to_name`), all in the `constants`
module which is not under src/.  Each is a Python dict: a missing key
raises `KeyError`, modelled as `none`. -/
structure ParserEnv where
  codeToName : Nat → Option String
  nameToConverter : String → Option (List Nat → HapVal)
  formatCodeToName : Nat → Option String
  formatNameToConverter : String → Option (List Nat → HapVal)
  unitCodeToName : Nat → Option String

/-- Modelled from the spec: `constants.HAP_param_type_code_to_name`.  The
spec pins TLV type `0x01` = `Value` and `0x04` =
`GATT_Presentation_Format_Descriptor`; the codes of the other canonical
names are not given by the spec and are left out. -/
def HAP_param_type_code_to_name : Nat → Option String := fun c =>
  if c = 1 then some "Value"
  else if c = 4 then some "GATT_Presentation_Format_Descriptor"
  else none

/-- A concrete `ParserEnv` built from the spec-modelled tables; entries the
spec does not pin are left empty, and the default converter behaviour
(`utils.identity`) is raw bytes. -/
def specEnv : ParserEnv :=
  { codeToName := HAP_param_type_code_to_name
    nameToConverter := fun _ => none
    formatCodeToName := fun _ => none
    formatNameToConverter := fun _ => none
    unitCodeToName := fun _ => none }

/-- Fuel-driven worker for `iterate_tvl`; each step consumes at least two
bytes, so fuel equal to the buffer length always suffices (the fuel-zero
fallback on a non-empty buffer is unreachable from `iterate_tvl`). -/
def iterateTvlF : Nat → List Nat →
    Except HapRequestError (List (Nat × Nat × List Nat))
  | _, [] => .ok []
  | 0, _ :: _ => .error .malformedTLV
  | _ + 1, [_] => .error .malformedTLV
  | fuel + 1, t :: l :: rest =>
    if l ≤ rest.length then
      match iterateTvlF fuel (rest.drop l) with
      | .error e => .error e
      | .ok items => .ok ((t, l, rest.take l) :: items)
    else .error .malformedTLV

/-- Modelled from the spec: `utils.iterate_tvl` (the `utils` module is not
under src/).  Per spec section 4.A, `decode_tlv_stream` yields
`(type, length, value)` triples until the buffer is exhausted and fails
with MalformedTLV when a declared length exceeds the remaining buffer (a
buffer ending inside a TLV header is likewise malformed). -/
def iterate_tvl (buf : List Nat) :
    Except HapRequestError (List (Nat × Nat × List Nat)) :=
  iterateTvlF buf.length buf

/-- The loop body of `HapCharacteristic._parse_response` (ble.py 366-411)
over the decoded TLV items: check the declared length, look the canonical
name up from the type code (`KeyError` when absent), pick the converter
(the characteristic's current `hap_format_converter` for
`GATT_Valid_Range` / `HAP_Step_Value_Descriptor` / `Value`, the
name-specific converter otherwise), decode
`GATT_Presentation_Format_Descriptor` and `GATT_Valid_Range` specially, and
accumulate the lowercased attribute names; the format descriptor updates
the converter used for the following items (the Python code stores it via
`setattr(self, 'hap_format_converter', ...)`). -/
def parseItems (env : ParserEnv) (conv : List Nat → HapVal) :
    List (Nat × Nat × List Nat) →
    Except HapRequestError (List (String × HapVal))
  | [] => .ok []
  | (bodyType, length, bytes) :: rest =>
    if bytes.length ≠ length then .error .invalidResponseLength
    else
      match env.codeToName bodyType with
      | none => .error (.keyError bodyType)
      | some name =>
        let itemConv : Except HapRequestError (List Nat → HapVal) :=
          if name = "GATT_Valid_Range" ∨ name = "HAP_Step_Value_Descriptor" ∨
              name = "Value" then .ok conv
          else
            match env.nameToConverter name with
            | none => .error (.keyErrorName name)
            | some c => .ok c
        match itemConv with
        | .error e => .error e
        | .ok c =>
          if name = "GATT_Presentation_Format_Descriptor" then
            match c bytes with
            | .pair formatCode unitCode =>
              match env.formatCodeToName formatCode with
              | none => .error (.keyError formatCode)
              | some formatName =>
                match env.formatNameToConverter formatName with
                | none => .error (.keyErrorName formatName)
                | some fc =>
                  match env.unitCodeToName unitCode with
                  | none => .error (.keyError unitCode)
                  | some unitName =>
                    match parseItems env fc rest with
                    | .error e => .error e
                    | .ok attrs =>
                      .ok ([("hap_format", .str formatName),
                        ("hap_format_converter", .convRef formatName),
                        ("hap_unit", .str unitName)] ++ attrs)
            | _ => .error .typeError
          else if name = "GATT_Valid_Range" then
            match parseItems env conv rest with
            | .error e => .error e
            | .ok attrs =>
              .ok ([("min_value", c (bytes.take (bytes.length / 2))),
                ("max_value", c (bytes.drop (bytes.length / 2)))] ++ attrs)
          else
            match parseItems env conv rest with
            | .error e => .error e
            | .ok attrs => .ok ((name.toLower, c bytes) :: attrs)

/-- `HapCharacteristic._parse_response` (ble.py 366-411): iterate the TLV
stream of `response[5:]` and fold the items with `parseItems`, starting
from the characteristic's current `hap_format_converter`. -/
def parse_response (env : ParserEnv) (conv : List Nat → HapVal)
    (response : List Nat) :
    Except HapRequestError (List (String × HapVal)) :=
  match iterate_tvl (response.drop 5) with
  | .error e => .error e
  | .ok items => parseItems env conv items

/-- Decidable equality for `Except`, so that concrete runs of the engine
can be settled by `decide`. -/
instance {e a : Type} [DecidableEq e] [DecidableEq a] :
    DecidableEq (Except e a) := fun x y =>
  match x, y with
  | .error u, .error v =>
    match decEq u v with
    | isTrue h => isTrue (h ▸ rfl)
    | isFalse h => isFalse fun c => h (Except.error.inj c)
  | .ok u, .ok v =>
    match decEq u v with
    | isTrue h => isTrue (h ▸ rfl)
    | isFalse h => isFalse fun c => h (Except.ok.inj c)
  | .error _, .ok _ => isFalse fun c => Except.noConfusion c
  | .ok _, .error _ => isFalse fun c => Except.noConfusion c

lemma prepare_tlv_length (t : Nat) (v : List Nat) :
    (prepare_tlv t v).length = 2 + v.length := by
  simp [prepare_tlv]; omega

lemma testBit7_reqControlField (h : HapBlePduRequestHeader) :
    Nat.testBit (reqControlField h) 7 = h.continuation := by
  cases hc : h.continuation <;> cases hr : h.response <;>
    simp [reqControlField, hc, hr] <;> decide

/-- Every frame of the shape `header.data ++ rest` carries the header's
transaction id at the byte position `frameTid` reads. -/
lemma frameTid_reqHeader (h : HapBlePduRequestHeader) (x : List Nat) :
    frameTid (reqHeaderData h ++ x) = h.transactionId := by
  have hb := testBit7_reqControlField h
  cases hc : h.continuation <;>
    simp [frameTid, reqHeaderData, hc, hc ▸ hb]

lemma fill_weight (body : List (Nat × List Nat)) :
    ∀ fd : List Nat,
      weight (fillFragment body fd).1 + (fillFragment body fd).2.length
        = weight body + fd.length := by
  induction body with
  | nil => intro fd; simp [fillFragment, weight]
  | cons p rest ih =>
    intro fd
    obtain ⟨t, v⟩ := p
    by_cases hlt : fd.length + (prepare_tlv t v).length < 512
    · simp only [fillFragment, hlt, if_true]
      rw [ih]
      simp [weight, prepare_tlv]
      omega
    · simp [fillFragment, hlt, weight]

lemma fill_nofit (body : List (Nat × List Nat)) :
    ∀ (fd : List Nat) (t : Nat) (v : List Nat)
      (tail : List (Nat × List Nat)) (fd2 : List Nat),
      fillFragment body fd = ((t, v) :: tail, fd2) →
      512 ≤ fd2.length + (2 + v.length) := by
  induction body with
  | nil =>
    intro fd t v tail fd2 heq
    simp [fillFragment] at heq
  | cons p rest ih =>
    intro fd t v tail fd2 heq
    obtain ⟨a, w⟩ := p
    by_cases hlt : fd.length + (prepare_tlv a w).length < 512
    · simp only [fillFragment, hlt, if_true] at heq
      exact ih _ _ _ _ _ heq
    · rw [show fillFragment ((a, w) :: rest) fd = ((a, w) :: rest, fd) from
        by simp [fillFragment, hlt]] at heq
      injection heq with h1 h2
      injection h1 with h3 h4
      injection h3 with h5 h6
      rw [prepare_tlv_length] at hlt
      subst h2 h5 h6
      omega

lemma fill_lt (body : List (Nat × List Nat)) :
    ∀ fd : List Nat, fd.length < 512 →
      (fillFragment body fd).2.length < 512 := by
  induction body with
  | nil => intro fd hfd; simpa [fillFragment] using hfd
  | cons p rest ih =>
    intro fd hfd
    obtain ⟨t, v⟩ := p
    by_cases hlt : fd.length + (prepare_tlv t v).length < 512
    · simp only [fillFragment, hlt, if_true]
      exact ih _ (by simp; omega)
    · rw [show fillFragment ((t, v) :: rest) fd = ((t, v) :: rest, fd) from
        by simp [fillFragment, hlt]]
      exact hfd

/-- Each iteration of the fragmentation loop strictly shrinks the pending
body's total encoded size. -/
lemma frag_decrease (body : List (Nat × List Nat)) (t : Nat) (v : List Nat)
    (tail : List (Nat × List Nat)) (fd : List Nat)
    (heq : fillFragment body [] = ((t, v) :: tail, fd)) :
    weight ((t, v.drop (512 - fd.length)) :: tail) < weight body := by
  have hw := fill_weight body []
  have hnf := fill_nofit body [] t v tail fd heq
  have hlt := fill_lt body [] (by norm_num)
  rw [heq] at hw hlt
  simp only [weight, List.map_cons, List.sum_cons, List.length_drop,
    List.length_nil, Nat.add_zero] at hw ⊢
  omega

/-- With sufficient fuel and a non-empty body, the fragmentation loop ends
with an empty body list, a header whose continuation flag is set and whose
transaction id is unchanged, and every emitted frame carrying that
transaction id. -/
lemma fragLoopF_spec :
    ∀ (fuel : Nat) (h : HapBlePduRequestHeader)
      (body : List (Nat × List Nat)), weight body < fuel → body ≠ [] →
      (fragLoopF fuel h body).2.1 = [] ∧
      (fragLoopF fuel h body).2.2.continuation = true ∧
      (fragLoopF fuel h body).2.2.transactionId = h.transactionId ∧
      ∀ f ∈ (fragLoopF fuel h body).1, frameTid f = h.transactionId := by
  intro fuel
  induction fuel with
  | zero => intro h body hw hne; exact absurd hw (Nat.not_lt_zero _)
  | succ fuel ih =>
    intro h body hw hne
    rcases hfe : fillFragment body [] with ⟨rest, fd⟩
    cases rest with
    | nil =>
      simp only [fragLoopF, hne, if_false, hfe]
      refine ⟨by trivial, by trivial, by trivial, ?_⟩
      intro f hf
      rw [List.mem_singleton] at hf
      subst hf
      rw [List.append_assoc]
      exact frameTid_reqHeader h _
    | cons p tail =>
      obtain ⟨t, v⟩ := p
      have hdec := frag_decrease body t v tail fd hfe
      have ih2 := ih { h with continuation := true }
        ((t, v.drop (512 - fd.length)) :: tail) (by omega) (by simp)
      simp only [fragLoopF, hne, if_false, hfe]
      refine ⟨ih2.1, ih2.2.1, ih2.2.2.1, ?_⟩
      intro f hf
      rcases List.mem_cons.mp hf with hf1 | hf2
      · subst hf1
        rw [List.append_assoc]
        exact frameTid_reqHeader h _
      · exact ih2.2.2.2 f hf2

/-- Every frame `_request` writes carries the header's transaction id. -/
lemma requestWrites_frames_tid (h : HapBlePduRequestHeader)
    (body : List (Nat × List Nat)) :
    ∀ f ∈ (requestWrites h body).1, frameTid f = h.transactionId := by
  unfold requestWrites
  by_cases hb : body = []
  · simp only [hb, if_true]
    intro f hf
    rw [List.mem_singleton] at hf
    subst hf
    have := frameTid_reqHeader h []
    simpa using this
  · simp only [hb, if_false]
    by_cases hle : (reqHeaderData h).length + 2 +
        ((body.map fun p => prepare_tlv p.1 p.2).map List.length).sum ≤ 512
    · simp only [hle, if_true]
      intro f hf
      rw [List.mem_singleton] at hf
      subst hf
      rw [List.append_assoc]
      exact frameTid_reqHeader h _
    · simp only [hle, if_false]
      exact (fragLoopF_spec (weight body + 1) h body (by omega) hb).2.2.2

lemma testBit_ge8 (x i : Nat) (hx : x < 256) (hi : 8 ≤ i) :
    Nat.testBit x i = false := by
  refine Nat.testBit_eq_false_of_lt (lt_of_lt_of_le hx ?_)
  calc (256 : Nat) = 2 ^ 8 := by norm_num
  _ ≤ 2 ^ i := Nat.pow_le_pow_right (by norm_num) hi

lemma reqControlField_lt (h : HapBlePduRequestHeader) :
    reqControlField h < 256 := by
  cases hc : h.continuation <;> cases hr : h.response <;>
    simp [reqControlField, hc, hr]

/-- C2: a non-continuation request header encodes to the 19 bytes
`[control_field, op_code, transaction_id] ++ cid_sid` and a continuation
header to the 2 bytes `[control_field, transaction_id]`; the control field
has bit 1 = response and bit 7 = continuation with every other bit clear;
the literal example of the spec encodes to
`02 01 42 00 01 ... 0F`. -/
theorem c2_request_header_encoding (cidSid : List Nat) (op tid : Nat)
    (resp cont : Bool) (hlen : cidSid.length = 16) :
    (reqHeaderData ⟨false, resp, op, tid, cidSid⟩
      = reqControlField ⟨false, resp, op, tid, cidSid⟩ :: op :: tid :: cidSid) ∧
    (reqHeaderData ⟨false, resp, op, tid, cidSid⟩).length = 19 ∧
    (reqHeaderData ⟨true, resp, op, tid, cidSid⟩
      = [reqControlField ⟨true, resp, op, tid, cidSid⟩, tid]) ∧
    Nat.testBit (reqControlField ⟨cont, resp, op, tid, cidSid⟩) 1 = resp ∧
    Nat.testBit (reqControlField ⟨cont, resp, op, tid, cidSid⟩) 7 = cont ∧
    (∀ i, i ≠ 1 → i ≠ 7 →
      Nat.testBit (reqControlField ⟨cont, resp, op, tid, cidSid⟩) i = false) ∧
    reqHeaderData ⟨false, true, 1, 66,
        [0, 1, 2, 3, 4, 5, 6, 7, 8, 9, 10, 11, 12, 13, 14, 15]⟩
      = [2, 1, 66, 0, 1, 2, 3, 4, 5, 6, 7, 8, 9, 10, 11, 12, 13, 14, 15] := by
  refine ⟨by simp [reqHeaderData], by simp [reqHeaderData, hlen], by simp [reqHeaderData], ?_, ?_, ?_, by decide⟩
  · cases resp <;> cases cont <;> simp [reqControlField] <;> decide
  · cases resp <;> cases cont <;> simp [reqControlField] <;> decide
  · intro i h1 h7
    by_cases h8 : 8 ≤ i
    · exact testBit_ge8 _ _ (reqControlField_lt _) h8
    · push_neg at h8
      interval_cases i <;> simp_all <;>
        cases resp <;> cases cont <;> simp [reqControlField] <;> decide

/-- C2 witness: the spec's literal signature-read header. -/
theorem c2_request_header_encoding_witness :
    reqHeaderData ⟨false, true, 1, 66,
        [0, 1, 2, 3, 4, 5, 6, 7, 8, 9, 10, 11, 12, 13, 14, 15]⟩
      = [2, 1, 66, 0, 1, 2, 3, 4, 5, 6, 7, 8, 9, 10, 11, 12, 13, 14, 15] :=
  (c2_request_header_encoding [0, 1, 2, 3, 4, 5, 6, 7, 8, 9, 10, 11, 12, 13, 14, 15]
    1 66 true false (by decide)).2.2.2.2.2.2

/-- C3 counterexample: a first byte with a reserved bit set (0x01) does not
survive decode followed by re-encode, because `from_data` keeps only bits 1
and 7 of the control field. -/
theorem c3_roundtrip_counterexample :
    respData (respFromData [1, 0, 0]) ≠ [1, 0, 0] := by decide

/-- C3 amended: decoding then re-encoding a 3-byte response header is the
identity provided the control-field byte has all bits other than bit 1
(response) and bit 7 (continuation) clear. -/
theorem c3_roundtrip_amended (a b c : Nat) (ha : a < 256)
    (hmask : a &&& 125 = 0) :
    respData (respFromData [a, b, c]) = [a, b, c] := by
  have key : ∀ x : Nat, x < 256 → x &&& 125 = 0 →
      ((if Nat.testBit x 7 = true then 128 else 0) +
        if Nat.testBit x 1 = true then 2 else 0) = x := by decide
  simp [respData, respFromData, respControlField]
  exact key a ha hmask

/-- C3 witness: a header byte with response and continuation set. -/
theorem c3_roundtrip_amended_witness :
    respData (respFromData [130, 66, 0]) = [130, 66, 0] :=
  c3_roundtrip_amended 130 66 0 (by decide) (by decide)

/-- C6: the transaction id is an 8-bit value drawn once on first access
(later reads return the cached value unchanged), and every frame of a
request, first fragment and continuations alike, carries the header's
transaction id. -/
theorem c6_transaction_id_once (r r2 : Nat) (h : HapBlePduRequestHeader)
    (body : List (Nat × List Nat)) :
    (getTransactionId none r).1 < 256 ∧
    (getTransactionId none r).2 = some (getTransactionId none r).1 ∧
    getTransactionId (getTransactionId none r).2 r2
      = ((getTransactionId none r).1, (getTransactionId none r).2) ∧
    ∀ f ∈ (requestWrites h body).1, frameTid f = h.transactionId :=
  ⟨Nat.mod_lt r (by norm_num), rfl, rfl, requestWrites_frames_tid h body⟩

/-- C10: when the serialized request exceeds 512 bytes the fragmentation
loop drains the caller's body list and leaves the header's continuation
flag set; in the single-frame case both are left untouched. -/
theorem c10_request_mutation (h : HapBlePduRequestHeader)
    (body : List (Nat × List Nat)) :
    (body ≠ [] →
      512 < (reqHeaderData h).length + 2 +
        ((body.map fun p => prepare_tlv p.1 p.2).map List.length).sum →
      (requestWrites h body).2.1 = [] ∧
      (requestWrites h body).2.2.continuation = true) ∧
    ((reqHeaderData h).length + 2 +
        ((body.map fun p => prepare_tlv p.1 p.2).map List.length).sum ≤ 512 →
      (requestWrites h body).2.1 = body ∧ (requestWrites h body).2.2 = h) := by
  constructor
  · intro hne hgt
    unfold requestWrites
    simp only [hne, if_false]
    have hle : ¬((reqHeaderData h).length + 2 +
        ((body.map fun p => prepare_tlv p.1 p.2).map List.length).sum ≤ 512) := by
      omega
    simp only [hle, if_false]
    have hs := fragLoopF_spec (weight body + 1) h body (by omega) hne
    exact ⟨hs.1, hs.2.1⟩
  · intro hle
    unfold requestWrites
    by_cases hb : body = []
    · simp [hb]
    · simp only [hb, if_false, hle, if_true]
      exact ⟨by trivial, by trivial⟩

/-- C10 witness: a two-item body whose encoding needs 525 bytes is drained
and the header left in continuation state. -/
theorem c10_request_mutation_witness :
    (requestWrites ⟨false, true, 1, 66, List.replicate 16 0⟩
      [(1, List.replicate 250 0), (1, List.replicate 250 0)]).2.1 = [] ∧
    (requestWrites ⟨false, true, 1, 66, List.replicate 16 0⟩
      [(1, List.replicate 250 0),
        (1, List.replicate 250 0)]).2.2.continuation = true :=
  (c10_request_mutation _ _).1 (by decide) (by decide)

/-- C1: the body `[(1, 250 bytes), (1, 250 bytes)]` forces the fragmented
path (19 + 2 + 504 = 525 > 512), yet the loop emits a single frame of 525
bytes, exceeding MAX_FRAME = 512: the fragmentation branch bounds only the
TLV payload against 512 and ignores the header and length-prefix bytes.
The frame's first byte is 0x02 (continuation clear). -/
theorem c1_fragmenter_oversized_frame :
    ((requestWrites ⟨false, true, 1, 66, List.replicate 16 0⟩
        [(1, List.replicate 250 0), (1, List.replicate 250 0)]).1.map
        List.length = [525]) ∧
    (512 < ((requestWrites ⟨false, true, 1, 66, List.replicate 16 0⟩
        [(1, List.replicate 250 0), (1, List.replicate 250 0)]).1.headD
        []).length) ∧
    (((requestWrites ⟨false, true, 1, 66, List.replicate 16 0⟩
        [(1, List.replicate 250 0), (1, List.replicate 250 0)]).1.headD
        []).headD 0 = 2) :=
  ⟨by decide, by decide, by decide⟩

/-- A `HapBleError` can only come out of `_check_read_response` for the
response's own status code, and only when that status is not Success. -/
lemma check_hapBleError_status (req : HapBlePduRequestHeader)
    (response : List Nat) (s : Nat) (nm : String)
    (hc : check_read_response req response
      = .error (.hapBleError s nm)) :
    (respFromData response).statusCode = s ∧
      (respFromData response).statusCode ≠ 0 := by
  unfold check_read_response at hc
  split_ifs at hc with h1 h2 h3 h4 h5
  · simp at hc
  · simp at hc
  · simp at hc
  · rcases hm : status_code_to_name (respFromData response).statusCode with _ | nm2 <;>
      rw [hm] at hc <;> simp at hc
    exact ⟨hc.1, h4⟩
  · rcases hu : unpackH ((response.drop 3).take 2) with _ | bl <;>
      rw [hu] at hc
    · simp at hc
    · by_cases hb2 : response.length - 5 = bl
      · simp [hb2] at hc
      · simp [hb2] at hc

/-- C4: a validated response header whose status code is not Success makes
the engine raise `HapBleError` carrying that status code's canonical name
("Invalid Request" for 0x06); a Success status never produces a
`HapBleError` at this step. -/
theorem c4_status_error (req : HapBlePduRequestHeader) (response : List Nat)
    (s : Nat) (nm : String) :
    (3 ≤ response.length →
      respControlField (respFromData response) = reqControlField req →
      (respFromData response).transactionId = req.transactionId →
      (respFromData response).statusCode = s → s ≠ 0 →
      status_code_to_name s = some nm →
      check_read_response req response = .error (.hapBleError s nm)) ∧
    ((respFromData response).statusCode = 0 →
      ∀ s2 nm2, check_read_response req response
        ≠ .error (.hapBleError s2 nm2)) := by
  constructor
  · intro h3 hcf htid hs hs0 hnm
    have hn3 : ¬ response.length < 3 := by omega
    simp [check_read_response, hn3, hcf, htid, hs, hs0, hnm]
  · intro h0 s2 nm2 hc
    exact (check_hapBleError_status req response s2 nm2 hc).2 h0

/-- C4 witness: the spec's scenario 5, status byte 0x06. -/
theorem c4_status_error_witness :
    check_read_response ⟨false, true, 1, 66, List.replicate 16 0⟩ [2, 66, 6]
      = .error (.hapBleError 6 "Invalid Request") :=
  (c4_status_error ⟨false, true, 1, 66, List.replicate 16 0⟩ [2, 66, 6] 6
    "Invalid Request").1 (by decide) (by decide) (by decide) (by decide)
    (by decide) (by decide)

/-- C8: a response that passes the control-field check but carries a
different transaction id makes `write` fail with the transaction-id
mismatch error, for every parser, so the body parser is never invoked. -/
theorem c8_transaction_mismatch {α : Type}
    (parse : List Nat → Except HapRequestError α)
    (req : HapBlePduRequestHeader) (response : List Nat)
    (h3 : 3 ≤ response.length)
    (hcf : respControlField (respFromData response) = reqControlField req)
    (htid : (respFromData response).transactionId ≠ req.transactionId) :
    hapWrite parse req response = .error (.invalidTransactionId
      (respFromData response).transactionId req.transactionId) := by
  unfold hapWrite check_read_response
  rw [if_neg (by omega)]
  simp [hcf, htid]

/-- C8 witness: the spec's scenario 4 (request tid 0x7A, response tid
0x7B). -/
theorem c8_transaction_mismatch_witness :
    hapWrite (fun _ => Except.ok (0 : Nat)) ⟨false, true, 1, 122, []⟩
      [2, 123, 0] = .error (.invalidTransactionId 123 122) :=
  c8_transaction_mismatch (fun _ => Except.ok (0 : Nat))
    ⟨false, true, 1, 122, []⟩ [2, 123, 0] (by decide) (by decide) (by decide)

/-- C9 counterexample: against an ordinary (non-continuation) request
header, a response with the continuation bit set fails the control-field
check first, so `write` raises the control-field mismatch error, not the
not-implemented error the claim asserts. -/
theorem c9_continuation_counterexample :
    hapWrite (fun _ => Except.ok (0 : Nat))
      ⟨false, true, 1, 66, List.replicate 16 0⟩ [130, 66, 0]
      = .error (.invalidControlField 130 2) ∧
    hapWrite (fun _ => Except.ok (0 : Nat))
      ⟨false, true, 1, 66, List.replicate 16 0⟩ [130, 66, 0]
      ≠ .error .notImplemented :=
  ⟨by decide, by decide⟩

/-- C9 amended: when a response with the continuation bit set does pass
header validation (which requires the request header to be in continuation
state too), `write` fails with the not-implemented error before invoking
any parser. -/
theorem c9_continuation_amended {α : Type}
    (parse : List Nat → Except HapRequestError α)
    (req : HapBlePduRequestHeader) (response : List Nat)
    (rh : HapBlePduResponseHeader)
    (hok : check_read_response req response = .ok rh)
    (hcont : rh.continuation = true) :
    hapWrite parse req response = .error .notImplemented := by
  unfold hapWrite
  rw [hok]
  simp [hcont]

/-- C9 witness: a continuation response matching a continuation request. -/
theorem c9_continuation_amended_witness :
    hapWrite (fun _ => Except.ok (0 : Nat)) ⟨true, true, 1, 66, []⟩
      [130, 66, 0] = .error .notImplemented :=
  c9_continuation_amended (fun _ => Except.ok (0 : Nat))
    ⟨true, true, 1, 66, []⟩ [130, 66, 0] (respFromData [130, 66, 0])
    (by decide) (by decide)

/-- C7 counterexample: a response whose only body TLV has the unknown type
0xEE makes the parser fail with a `KeyError` instead of ignoring the item
and returning the unaffected (empty) attribute mapping. -/
theorem c7_unknown_type_counterexample :
    parse_response specEnv HapVal.raw [2, 66, 0, 3, 0, 238, 1, 0]
      = .error (.keyError 238) ∧
    parse_response specEnv HapVal.raw [2, 66, 0, 3, 0, 238, 1, 0]
      ≠ .ok [] :=
  ⟨by decide, by decide⟩

/-- C7 amended: a TLV item whose type code has no canonical parameter name
is not skipped; when the parser reaches it (here: the first body item) the
name lookup fails with `KeyError` and no attribute mapping is produced. -/
theorem c7_unknown_type_amended (env : ParserEnv)
    (conv : List Nat → HapVal) (response : List Nat) (t len2 : Nat)
    (v : List Nat) (rest : List (Nat × Nat × List Nat))
    (hit : iterate_tvl (response.drop 5) = .ok ((t, len2, v) :: rest))
    (hlen : v.length = len2)
    (hunknown : env.codeToName t = none) :
    parse_response env conv response = .error (.keyError t) := by
  unfold parse_response
  rw [hit]
  simp [parseItems, hlen, hunknown]

/-- C7 witness: the unknown type 0xEE aborts the parse with KeyError. -/
theorem c7_unknown_type_amended_witness :
    parse_response specEnv HapVal.raw [2, 66, 0, 3, 0, 238, 1, 0]
      = .error (.keyError 238) :=
  c7_unknown_type_amended specEnv HapVal.raw [2, 66, 0, 3, 0, 238, 1, 0]
    238 1 [0] [] (by decide) (by decide) (by decide)

/-- C5 counterexample: a response of length exactly 4 satisfies
"length greater than 3", yet `response[3:5]` is a single byte, so
`unpack('<H', ...)` fails with a struct error rather than the body-length
comparison the claim describes (and validation neither succeeds nor
reports a body-length mismatch). -/
theorem c5_body_length_counterexample :
    check_read_response ⟨false, true, 1, 66, []⟩ [2, 66, 0, 7]
      = .error .structError :=
  by decide

/-- C5 amended: for a response of length at least 5 (after the control
field, transaction id and status checks pass), the engine reads bytes 3..4
as a little-endian body length and the body-length validation succeeds
exactly when that value equals the number of bytes after the first five,
failing with the body-length mismatch error otherwise; a response of
length exactly 4 instead fails with a struct unpack error. -/
theorem c5_body_length_amended (req : HapBlePduRequestHeader)
    (response : List Nat)
    (hcf : respControlField (respFromData response) = reqControlField req)
    (htid : (respFromData response).transactionId = req.transactionId)
    (hst : (respFromData response).statusCode = 0) :
    (response.length = 4 →
      check_read_response req response = .error .structError) ∧
    (5 ≤ response.length →
      ((check_read_response req response = .ok (respFromData response)) ↔
        response.getD 3 0 + 256 * response.getD 4 0 = response.length - 5) ∧
      (response.getD 3 0 + 256 * response.getD 4 0 ≠ response.length - 5 →
        check_read_response req response = .error (.invalidBodyLength
          (response.length - 5)
          (response.getD 3 0 + 256 * response.getD 4 0)))) := by
  constructor
  · intro h4
    rcases response with _ | ⟨a, _ | ⟨b, _ | ⟨c, _ | ⟨d, rest⟩⟩⟩⟩ <;>
      simp at h4
    subst h4
    simp [check_read_response, unpackH, hcf, htid, hst]
  · intro h5
    rcases response with _ | ⟨a, _ | ⟨b, _ | ⟨c, _ | ⟨d, _ | ⟨e, rest⟩⟩⟩⟩⟩ <;>
      simp at h5
    by_cases hbl : d + 256 * e = rest.length
    · have hbl2 : rest.length = d + 256 * e := hbl.symm
      constructor
      · simp [check_read_response, unpackH, hcf, htid, hst, hbl2]
      · intro hne
        exact absurd hbl (by simpa using hne)
    · have hbl2 : ¬ rest.length = d + 256 * e := fun hh => hbl hh.symm
      constructor
      · simp [check_read_response, unpackH, hcf, htid, hst, hbl2, hbl]
        split <;> simp
      · intro hne
        simp [check_read_response, unpackH, hcf, htid, hst, hbl2]

/-- C5 witness: a 7-byte response whose declared body length 2 matches the
two bytes after the 5-byte prefix. -/
theorem c5_body_length_amended_witness :
    check_read_response ⟨false, true, 1, 66, []⟩ [2, 66, 0, 2, 0, 9, 9]
      = .ok (respFromData [2, 66, 0, 2, 0, 9, 9]) :=
  (((c5_body_length_amended ⟨false, true, 1, 66, []⟩ [2, 66, 0, 2, 0, 9, 9]
    (by decide) (by decide) (by decide)).2 (by decide)).1).mpr (by decide)
